import Mathlib

/-!
Verification of the multi-identity account-linking core of the
farcaster-automate repository.

The development shallowly embeds:
- the credential derivation performed by the wallet-auth page
  (`handleWalletAuth`) and by the Farcaster sign-in dialog
  (`handleSuccess` in `FarcasterSignIn.tsx`);
- the payload-shape extraction of `handleSuccess`;
- the Session Store (hosted auth: sign-in / sign-up / password reset via
  the `reset-farcaster-password` edge function) and the Link Store
  (`user_connections` table, one row per account, upsert on `user_id`);
- the account-linking flows `handleWalletAuth` and `handleSuccess`;
- the relay-channel error / reconnect effects of the sign-in dialog.

JavaScript-specific semantics (truthiness, `||` defaulting, template
interpolation of `null`, `String.prototype.replace` replacing only the
first occurrence for a string pattern) are modelled explicitly by the
`truthy…` / `or…` / `jsShow…` / `replaceFirst` helpers.
-/

/-! ## JavaScript value semantics helpers -/

/-- Truthiness of an optional JS number: `undefined`/`null` and `0` are falsy. -/
def truthyNat : Option Nat → Bool
  | none => false
  | some n => n != 0

/-- Truthiness of an optional JS string: `undefined`/`null` and `""` are falsy. -/
def truthyStr : Option String → Bool
  | none => false
  | some s => s != ""

/-- JS `a || b` on optional numbers: the left value unless it is falsy. -/
def orNat (a b : Option Nat) : Option Nat :=
  if truthyNat a then a else b

/-- JS `a || b` on optional strings: the left value unless it is falsy. -/
def orStr (a b : Option String) : Option String :=
  if truthyStr a then a else b

/-- JS `a || d` where the right operand is a plain (defined) string. -/
def jsOr (a : Option String) (d : String) : String :=
  if truthyStr a then a.getD d else d

/-- JS template interpolation of a possibly-null number (`null` prints as "null"). -/
def jsShowOptNat : Option Nat → String
  | some n => toString n
  | none => "null"

/-- JS template interpolation of a possibly-null string. -/
def jsShowOptStr : Option String → String
  | some s => s
  | none => "null"

/-! Kernel-computable character-list implementations of the string
primitives the source uses (`slice`, `toLowerCase`, `startsWith`,
first-occurrence `replace`); extensionally they agree with the
byte-position-based core versions, and being structural they evaluate
inside `decide` / `rfl` proofs. -/

/-- JS `s.slice(0, n)`: the first `n` characters. -/
def strTake (s : String) (n : Nat) : String :=
  ⟨s.data.take n⟩

/-- JS `s.toLowerCase()`. -/
def strToLower (s : String) : String :=
  ⟨s.data.map Char.toLower⟩

/-- JS `s.startsWith(p)`. -/
def strStartsWith (s p : String) : Bool :=
  p.data.isPrefixOf s.data

def replaceFirstAux (pat repl : List Char) : List Char → List Char
  | [] => []
  | c :: cs =>
    if pat.isPrefixOf (c :: cs) then repl ++ (c :: cs).drop pat.length
    else c :: replaceFirstAux pat repl cs

/-- JS `s.replace(pat, repl)` with a string pattern replaces only the FIRST
occurrence (unlike Lean's `String.replace`, which replaces all). -/
def replaceFirst (s pat repl : String) : String :=
  ⟨replaceFirstAux pat.data repl.data s.data⟩

/-! ## Credential derivation (Identity Credential Deriver)

Wallet variant: `handleWalletAuth`, src/unnamed/part_003 lines 58-60 and 133-138.
Social variant: `handleSuccess`, FarcasterSignIn.tsx lines 106-112. -/

/-- part_003 line 58: ensure the signature has a `0x` prefix. -/
def normalizeSignature (signature : String) : String :=
  if strStartsWith signature "0x" then signature else "0x" ++ signature

/-- part_003 line 59: lower-case the address and ensure a `0x` prefix. -/
def normalizeAddress (address : String) : String :=
  if strStartsWith address "0x" then strToLower address else "0x" ++ strToLower address

/-- part_003 line 60: `normalizedAddress.replace('0x', '').toLowerCase()`
(source local name `addressWithoutPrefix`). -/
def addressBody (address : String) : String :=
  strToLower (replaceFirst (normalizeAddress address) "0x" "")

/-- part_003 line 134: the synthetic wallet identity key. -/
def walletEmail (address : String) : String :=
  "wallet_" ++ addressBody address ++ "@faragent.local"

/-- part_003 lines 136-138: wallet secret `w_<sig[0..40)>_<addr[0..4)>`. -/
def walletPassword (address signature : String) : String :=
  let signaturePart := strTake (replaceFirst (normalizeSignature signature) "0x" "") 40
  let addressPart := strTake (addressBody address) 4
  "w_" ++ signaturePart ++ "_" ++ addressPart

/-- The wallet-variant credential pair `(identity key, secret)`. -/
def deriveWalletCredentials (address signature : String) : String × String :=
  (walletEmail address, walletPassword address signature)

/-- FarcasterSignIn.tsx line 107: the synthetic social identity key. -/
def farcasterEmail (fid : Nat) : String :=
  "farcaster_" ++ toString fid ++ "@faragent.local"

/-- FarcasterSignIn.tsx line 112: social secret
`` `fc_${fid}_${username}`.slice(0, 50) ``. -/
def farcasterPassword (fid : Nat) (username : String) : String :=
  strTake ("fc_" ++ toString fid ++ "_" ++ username) 50

/-! ## Sign-in success payload model and shape extraction
(`handleSuccess`, FarcasterSignIn.tsx lines 41-94)

`siweMessageSignature` stands for `signatureParams.siweMessage?.signature`
and `messageSignature` for `signatureParams.message?.signature`. -/

structure SigParams where
  fid : Option Nat
  username : Option String
  displayName : Option String
  pfpUrl : Option String
  signature : Option String
  siweMessageSignature : Option String
  messageSignature : Option String
  deriving DecidableEq, Repr

structure Metadata where
  fid : Option Nat
  username : Option String
  displayName : Option String
  pfpUrl : Option String
  signature : Option String
  deriving DecidableEq, Repr

structure Payload where
  fid : Option Nat
  username : Option String
  displayName : Option String
  pfpUrl : Option String
  signature : Option String
  metadata : Option Metadata
  signatureParams : Option SigParams
  deriving DecidableEq, Repr

structure Extracted where
  fid : Option Nat
  username : Option String
  displayName : Option String
  pfpUrl : Option String
  signature : Option String
  deriving DecidableEq, Repr

/-- FarcasterSignIn.tsx lines 49-81: shape-sniffing extraction.
Branch 1: flat, when `res.fid && res.username` are both truthy.
Branch 2: `res.metadata` present.
Branch 3: `res.signatureParams` present (falling back to flat fields).
Branch 4: the residual `||`-chains (reached when metadata and
signatureParams are both absent). -/
def extractPayload (res : Payload) : Extracted :=
  if truthyNat res.fid && truthyStr res.username then
    { fid := res.fid, username := res.username, displayName := res.displayName,
      pfpUrl := res.pfpUrl, signature := res.signature }
  else
    match res.metadata, res.signatureParams with
    | some meta, _ =>
      { fid := meta.fid, username := meta.username, displayName := meta.displayName,
        pfpUrl := meta.pfpUrl, signature := orStr res.signature meta.signature }
    | none, some params =>
      { fid := orNat params.fid res.fid,
        username := orStr params.username res.username,
        displayName := orStr params.displayName res.displayName,
        pfpUrl := orStr params.pfpUrl res.pfpUrl,
        signature := orStr res.signature (orStr params.signature
          (orStr params.siweMessageSignature params.messageSignature)) }
    | none, none =>
      { fid := orNat res.fid (orNat (res.metadata.bind Metadata.fid)
          (res.signatureParams.bind SigParams.fid)),
        username := orStr res.username (orStr (res.metadata.bind Metadata.username)
          (res.signatureParams.bind SigParams.username)),
        displayName := orStr res.displayName (orStr (res.metadata.bind Metadata.displayName)
          (res.signatureParams.bind SigParams.displayName)),
        pfpUrl := orStr res.pfpUrl (orStr (res.metadata.bind Metadata.pfpUrl)
          (res.signatureParams.bind SigParams.pfpUrl)),
        signature := orStr res.signature (orStr (res.metadata.bind Metadata.signature)
          (orStr (res.signatureParams.bind SigParams.signature)
            (orStr (res.signatureParams.bind SigParams.siweMessageSignature)
              (res.signatureParams.bind SigParams.messageSignature)))) }

/-- FarcasterSignIn.tsx line 86: `if (!fid || !username)` declares the payload
invalid; otherwise it is accepted. -/
def payloadValid (res : Payload) : Bool :=
  truthyNat (extractPayload res).fid && truthyStr (extractPayload res).username

/-- The payload carries a (truthy) fid and username in the flat shape. -/
def carriesFlat (res : Payload) : Prop :=
  truthyNat res.fid = true ∧ truthyStr res.username = true

/-- The payload carries a (truthy) fid and username nested under `metadata`. -/
def carriesMetadata (res : Payload) : Prop :=
  ∃ meta, res.metadata = some meta ∧
    truthyNat meta.fid = true ∧ truthyStr meta.username = true

/-- The payload carries a (truthy) fid and username nested under `signatureParams`. -/
def carriesSigParams (res : Payload) : Prop :=
  ∃ params, res.signatureParams = some params ∧
    truthyNat params.fid = true ∧ truthyStr params.username = true

/-! ## Session Store (hosted auth collaborator)

Accounts are `(id, email, password)`; `current` is the signed-in session.
`signIn` succeeds exactly when a stored user matches both the identity key
(email) and the secret (password). `signUp` fails with "already registered"
when the identity key is taken; otherwise it creates the account and signs
it in. `resetFarcasterPassword` models the `reset-farcaster-password` edge
function: find the user by email, then update that user's password. -/

structure AuthUser where
  id : Nat
  email : String
  password : String
  deriving DecidableEq, Repr

structure SessionStore where
  users : List AuthUser
  nextId : Nat
  current : Option Nat
  deriving DecidableEq, Repr

def signIn (st : SessionStore) (email password : String) : SessionStore × Bool :=
  match st.users.find? (fun u => u.email == email && u.password == password) with
  | some u => ({ st with current := some u.id }, true)
  | none => (st, false)

inductive SignUpOutcome
  | ok
  | alreadyRegistered
  deriving DecidableEq, Repr

def signUp (st : SessionStore) (email password : String) : SessionStore × SignUpOutcome :=
  match st.users.find? (fun u => u.email == email) with
  | some _ => (st, .alreadyRegistered)
  | none =>
    ({ users := st.users ++ [⟨st.nextId, email, password⟩],
       nextId := st.nextId + 1,
       current := some st.nextId }, .ok)

/-- supabase/functions/reset-farcaster-password/index.ts: look the user up by
email (`listUsers().find`)  and update that user's password by id
(`admin.updateUserById`). -/
def resetFarcasterPassword (st : SessionStore) (email newPassword : String) : SessionStore :=
  match st.users.find? (fun u => u.email == email) with
  | some u =>
    { st with users := st.users.map (fun v =>
        if v.id == u.id then { v with password := newPassword } else v) }
  | none => st

/-! ## Link Store (`user_connections`, one row per account)

`applyUpsert` models supabase `upsert(payload, onConflict := user_id)`:
on conflict only the columns present in the payload are written; absent
columns keep their stored value. In `UpdatePayload` the outer `Option`
is column presence, the inner `Option` is SQL null. -/

structure LinkRecord where
  user_id : Nat
  wallet_address : Option String
  farcaster_fid : Option Nat
  farcaster_username : Option String
  farcaster_display_name : Option String
  farcaster_pfp_url : Option String
  farcaster_signer_uuid : Option String
  deriving DecidableEq, Repr

structure LinkStore where
  rows : List LinkRecord
  deriving DecidableEq, Repr

structure UpdatePayload where
  user_id : Nat
  wallet_address : Option (Option String)
  farcaster_fid : Option (Option Nat)
  farcaster_username : Option (Option String)
  farcaster_display_name : Option (Option String)
  farcaster_pfp_url : Option (Option String)
  farcaster_signer_uuid : Option (Option String)
  deriving DecidableEq, Repr

def mergeRow (r : LinkRecord) (p : UpdatePayload) : LinkRecord :=
  { user_id := r.user_id,
    wallet_address := p.wallet_address.getD r.wallet_address,
    farcaster_fid := p.farcaster_fid.getD r.farcaster_fid,
    farcaster_username := p.farcaster_username.getD r.farcaster_username,
    farcaster_display_name := p.farcaster_display_name.getD r.farcaster_display_name,
    farcaster_pfp_url := p.farcaster_pfp_url.getD r.farcaster_pfp_url,
    farcaster_signer_uuid := p.farcaster_signer_uuid.getD r.farcaster_signer_uuid }

def newRow (p : UpdatePayload) : LinkRecord :=
  { user_id := p.user_id,
    wallet_address := p.wallet_address.getD none,
    farcaster_fid := p.farcaster_fid.getD none,
    farcaster_username := p.farcaster_username.getD none,
    farcaster_display_name := p.farcaster_display_name.getD none,
    farcaster_pfp_url := p.farcaster_pfp_url.getD none,
    farcaster_signer_uuid := p.farcaster_signer_uuid.getD none }

def applyUpsert (ls : LinkStore) (p : UpdatePayload) : LinkStore :=
  match ls.rows.find? (fun r => r.user_id == p.user_id) with
  | some _ =>
    { rows := ls.rows.map (fun r => if r.user_id == p.user_id then mergeRow r p else r) }
  | none => { rows := ls.rows ++ [newRow p] }

/-- `.select(...).eq('user_id', uid).maybeSingle()`. -/
def findByUserId (ls : LinkStore) (uid : Nat) : Option LinkRecord :=
  ls.rows.find? (fun r => r.user_id == uid)

/-- part_003 line 99: `.update({wallet_address}).eq('user_id', uid)`. -/
def updateWalletAddress (ls : LinkStore) (uid : Nat) (addr : String) : LinkStore :=
  { rows := ls.rows.map (fun r =>
      if r.user_id == uid then { r with wallet_address := some addr } else r) }

/-- part_003 line 67: the four address formats the `.or(...)` filter tries. -/
def candidateAddressFormats (address : String) : List String :=
  [normalizeAddress address, addressBody address, strToLower address, address]

def walletMatches (cands : List String) (r : LinkRecord) : Bool :=
  match r.wallet_address with
  | some w => cands.contains w
  | none => false

/-- part_003 lines 64-68: `.or(...).maybeSingle()` — one matching row yields
it; zero or several yield null. -/
def maybeSingleByWallet (ls : LinkStore) (cands : List String) : Option LinkRecord :=
  match ls.rows.filter (walletMatches cands) with
  | [r] => some r
  | _ => none

/-- part_003 lines 171-183: upsert payload of the wallet flow — always the
wallet address; the five Farcaster columns only when the current row's
`farcaster_fid` is truthy (then copied verbatim, preserving them). -/
def walletUpdatePayload (uid : Nat) (normalizedAddress : String)
    (currentConnection : Option LinkRecord) : UpdatePayload :=
  let base : UpdatePayload :=
    { user_id := uid, wallet_address := some (some normalizedAddress),
      farcaster_fid := none, farcaster_username := none,
      farcaster_display_name := none, farcaster_pfp_url := none,
      farcaster_signer_uuid := none }
  match currentConnection with
  | some c =>
    if truthyNat c.farcaster_fid then
      { base with
        farcaster_fid := some c.farcaster_fid,
        farcaster_username := some c.farcaster_username,
        farcaster_display_name := some c.farcaster_display_name,
        farcaster_pfp_url := some c.farcaster_pfp_url,
        farcaster_signer_uuid := some c.farcaster_signer_uuid }
    else base
  | none => base

/-- FarcasterSignIn.tsx lines 233-244: upsert payload of the social flow —
the wallet column is not part of the payload. -/
def socialUpdatePayload (uid fid : Nat) (username : String)
    (displayName pfpUrl : Option String) : UpdatePayload :=
  { user_id := uid,
    wallet_address := none,
    farcaster_fid := some (some fid),
    farcaster_username := some (some username),
    farcaster_display_name := some (some (jsOr displayName username)),
    farcaster_pfp_url := some (some (jsOr pfpUrl "")),
    farcaster_signer_uuid := none }

/-- The read-then-upsert performed at the end of the wallet flow
(part_003 lines 161-199). -/
def walletFlowUpsert (ls : LinkStore) (uid : Nat) (normalizedAddress : String) : LinkStore :=
  applyUpsert ls (walletUpdatePayload uid normalizedAddress (findByUserId ls uid))

/-- The upsert performed at the end of the social flow
(FarcasterSignIn.tsx lines 232-244). -/
def socialFlowUpsert (ls : LinkStore) (uid fid : Nat) (username : String)
    (displayName pfpUrl : Option String) : LinkStore :=
  applyUpsert ls (socialUpdatePayload uid fid username displayName pfpUrl)

/-! ## Account Linker actions and the social linking flow
(`handleSuccess`, FarcasterSignIn.tsx lines 32-278) -/

inductive AuthAction
  | signInAttempt (email password : String)
  | signUpAttempt (email password : String)
  | updateWallet (uid : Nat) (addr : String)
  | upsertLink (p : UpdatePayload)
  | resetPasswordCall (email newPassword : String)
  deriving DecidableEq, Repr

/-- FarcasterSignIn.tsx lines 135-140: ordered credential variants tried on
"already registered" — current formula first, then `_stable_key`, then the
two signature-based formats (present only when a signature was extracted;
`filter(Boolean)` drops them otherwise). -/
def socialAltPasswords (fid : Nat) (username : String) (signature : Option String) :
    List String :=
  [farcasterPassword fid username,
   "fc_" ++ toString fid ++ "_" ++ username ++ "_stable_key"] ++
  (if truthyStr signature then
    ["fc_" ++ toString fid ++ "_" ++ strTake (signature.getD "") 30,
     "fc_" ++ toString fid ++ "_" ++ strTake (signature.getD "") 20]
   else [])

/-- FarcasterSignIn.tsx lines 142-167: try each variant; on the first
success with a non-current variant, invoke `reset-farcaster-password` to
set the stored secret to the current pair. -/
def socialFallbackLoop (st : SessionStore) (femail fcur : String) :
    List String → SessionStore × Bool × List AuthAction
  | [] => (st, false, [])
  | pw :: rest =>
    let r := signIn st femail pw
    if r.2 then
      if pw != fcur then
        (resetFarcasterPassword r.1 femail fcur, true,
         [.signInAttempt femail pw, .resetPasswordCall femail fcur])
      else (r.1, true, [.signInAttempt femail pw])
    else
      let q := socialFallbackLoop r.1 femail fcur rest
      (q.1, q.2.1, .signInAttempt femail pw :: q.2.2)

inductive SocialResult
  | skipped
  | invalidPayload
  | success
  | resetNeeded
  deriving DecidableEq, Repr

/-- The dialog-side state threaded through `handleSuccess`: the external
stores plus the session-scoped already-processed flag. -/
structure ComponentState where
  session : SessionStore
  links : LinkStore
  hasProcessedSuccess : Bool
  deriving DecidableEq, Repr

/-- FarcasterSignIn.tsx lines 226-251: after authentication, `getUser()`
and upsert the Farcaster connection for that user. -/
def finishSocial (st : ComponentState) (ex : Extracted) (fid : Nat) (username : String)
    (tr : List AuthAction) : ComponentState × SocialResult × List AuthAction :=
  match st.session.current with
  | some uid =>
    let payload := socialUpdatePayload uid fid username ex.displayName ex.pfpUrl
    ({ st with links := applyUpsert st.links payload }, .success,
     tr ++ [.upsertLink payload])
  | none => (st, .success, tr)

/-- FarcasterSignIn.tsx lines 32-278 (`handleSuccess`): guard on the
session-scoped flag, extract and validate the payload, set the flag, then
run sign-in / sign-up / legacy-variant fallback and upsert the link row. -/
def handleSuccess (st : ComponentState) (res : Payload) :
    ComponentState × SocialResult × List AuthAction :=
  if st.hasProcessedSuccess then (st, .skipped, [])
  else
    let ex := extractPayload res
    if !(truthyNat ex.fid && truthyStr ex.username) then (st, .invalidPayload, [])
    else
      let st1 : ComponentState := { st with hasProcessedSuccess := true }
      let fid := ex.fid.getD 0
      let username := ex.username.getD ""
      let femail := farcasterEmail fid
      let fcur := farcasterPassword fid username
      let r1 := signIn st1.session femail fcur
      if r1.2 then
        finishSocial { st1 with session := r1.1 } ex fid username
          [.signInAttempt femail fcur]
      else
        let r2 := signUp r1.1 femail fcur
        match r2.2 with
        | .ok =>
          finishSocial { st1 with session := r2.1 } ex fid username
            [.signInAttempt femail fcur, .signUpAttempt femail fcur]
        | .alreadyRegistered =>
          let alts := socialAltPasswords fid username ex.signature
          let r3 := socialFallbackLoop r2.1 femail fcur alts
          if r3.2.1 then
            finishSocial { st1 with session := r3.1 } ex fid username
              ([.signInAttempt femail fcur, .signUpAttempt femail fcur] ++ r3.2.2)
          else
            ({ st1 with session := r3.1 }, .resetNeeded,
             [.signInAttempt femail fcur, .signUpAttempt femail fcur] ++ r3.2.2)

/-- Sequential delivery of success payloads to `handleSuccess` (callback and
fallback poll run on the single JS event-loop thread; the guard section of
`handleSuccess` up to setting the flag contains no await point). -/
def deliverList (st : ComponentState) :
    List Payload → ComponentState × List SocialResult × List AuthAction
  | [] => (st, [], [])
  | p :: ps =>
    let r := handleSuccess st p
    let q := deliverList r.1 ps
    (q.1, r.2.1 :: q.2.1, r.2.2 ++ q.2.2)

/-- Number of deliveries whose body actually ran (not guarded off, not
rejected as invalid). -/
def processedCount (results : List SocialResult) : Nat :=
  (results.filter (fun r => r != .skipped && r != .invalidPayload)).length

/-- Number of Link Record upserts in an action trace. -/
def upsertCount (tr : List AuthAction) : Nat :=
  (tr.filter (fun a => match a with | .upsertLink _ => true | _ => false)).length

/-! ## The wallet linking flow (`handleWalletAuth`, part_003 lines 30-216) -/

inductive WalletAuthResult
  | success
  | conflict (handle : String)
  | failed
  deriving DecidableEq, Repr

structure WalletLoopOut where
  session : SessionStore
  links : LinkStore
  authUser : Option Nat
  signedIn : Bool
  trace : List AuthAction
  deriving DecidableEq, Repr

/-- part_003 lines 88-113: try the bound account's social credential
variants; on success `getUser()` and update that row's wallet field. -/
def walletFarcasterLoop (session : SessionStore) (links : LinkStore)
    (femail normalizedAddress : String) : List String → WalletLoopOut
  | [] => ⟨session, links, none, false, []⟩
  | pw :: rest =>
    let r := signIn session femail pw
    if r.2 then
      match r.1.current with
      | some uid =>
        ⟨r.1, updateWalletAddress links uid normalizedAddress, some uid, true,
         [.signInAttempt femail pw, .updateWallet uid normalizedAddress]⟩
      | none => ⟨r.1, links, none, true, [.signInAttempt femail pw]⟩
    else
      let q := walletFarcasterLoop r.1 links femail normalizedAddress rest
      ⟨q.session, q.links, q.authUser, q.signedIn, .signInAttempt femail pw :: q.trace⟩

structure WalletStageOut where
  session : SessionStore
  authUser : Option Nat
  failed : Bool
  trace : List AuthAction
  deriving DecidableEq, Repr

/-- part_003 lines 133-158: wallet-credential sign-in, then sign-up, then a
retry sign-in when "already registered". -/
def walletAccountStage (st : SessionStore) (wemail wpw : String) : WalletStageOut :=
  let r1 := signIn st wemail wpw
  if r1.2 then ⟨r1.1, r1.1.current, false, [.signInAttempt wemail wpw]⟩
  else
    let r2 := signUp r1.1 wemail wpw
    match r2.2 with
    | .ok =>
      ⟨r2.1, r2.1.current, false, [.signInAttempt wemail wpw, .signUpAttempt wemail wpw]⟩
    | .alreadyRegistered =>
      let r3 := signIn r2.1 wemail wpw
      if r3.2 then
        ⟨r3.1, r3.1.current, false,
         [.signInAttempt wemail wpw, .signUpAttempt wemail wpw, .signInAttempt wemail wpw]⟩
      else
        ⟨r3.1, none, true,
         [.signInAttempt wemail wpw, .signUpAttempt wemail wpw, .signInAttempt wemail wpw]⟩

structure WalletAuthOut where
  session : SessionStore
  links : LinkStore
  result : WalletAuthResult
  trace : List AuthAction
  deriving DecidableEq, Repr

/-- part_003 lines 161-199: if a user is authenticated, read the current
row and upsert wallet plus preserved Farcaster columns. -/
def walletLinkFinish (session : SessionStore) (links : LinkStore)
    (authUser : Option Nat) (normalizedAddress : String)
    (tr : List AuthAction) : WalletAuthOut :=
  match authUser with
  | some uid =>
    let payload := walletUpdatePayload uid normalizedAddress (findByUserId links uid)
    ⟨session, applyUpsert links payload, .success, tr ++ [.upsertLink payload]⟩
  | none => ⟨session, links, .success, tr⟩

/-- part_003 lines 130-159 followed by 161-199: the wallet-credential
account path, then the linking upsert. -/
def walletStagePart (session : SessionStore) (links : LinkStore)
    (address signature normalizedAddress : String) : WalletAuthOut :=
  let wemail := walletEmail address
  let wpw := walletPassword address signature
  let st := walletAccountStage session wemail wpw
  if st.failed then ⟨st.session, links, .failed, st.trace⟩
  else walletLinkFinish st.session links st.authUser normalizedAddress st.trace

/-- part_003 lines 30-216 (`handleWalletAuth`), starting after signature
collection: normalize, look up an existing binding of the wallet address,
and either re-resolve to the bound Farcaster account (or raise the
conflict naming its handle) or run the wallet-credential path. -/
def handleWalletAuth (session : SessionStore) (links : LinkStore)
    (address signature : String) : WalletAuthOut :=
  let normalizedAddress := normalizeAddress address
  match maybeSingleByWallet links (candidateAddressFormats address) with
  | some c =>
    if truthyNat c.farcaster_fid then
      let femail := "farcaster_" ++ jsShowOptNat c.farcaster_fid ++ "@faragent.local"
      let fpw := "fc_" ++ jsShowOptNat c.farcaster_fid ++ "_" ++
        jsShowOptStr c.farcaster_username
      let alts := [fpw, "fc_" ++ jsShowOptNat c.farcaster_fid ++ "_" ++
        jsShowOptStr c.farcaster_username ++ "_stable_key"]
      let out := walletFarcasterLoop session links femail normalizedAddress alts
      if out.signedIn then
        walletLinkFinish out.session out.links out.authUser normalizedAddress out.trace
      else
        ⟨out.session, out.links, .conflict (jsShowOptStr c.farcaster_username), out.trace⟩
    else
      walletStagePart session links address signature normalizedAddress
  | none => walletStagePart session links address signature normalizedAddress

/-! ## Protocol Sign-In Adapter effects

React `useEffect` bodies are modelled as pure transitions: an effect body
runs against the component state and a snapshot of its dependencies, and
re-runs only when the dependency snapshot changes. -/

inductive AdapterAction
  | connect
  | startSignIn
  | reconnectChannel
  | surfaceError (msg : String)
  deriving DecidableEq, Repr

/-- Dependencies read by the channel-error effect
(FarcasterSignIn.tsx lines 422-439). -/
structure ChannelSnapshot where
  isError : Bool
  errorIncludes401 : Bool
  channelToken : Option String
  url : Option String
  hasProcessedSuccess : Bool
  capturedSuccessData : Bool
  deriving DecidableEq, Repr

/-- Local dialog state touched by the channel effects. -/
structure ChannelState where
  channelErrorCount : Nat
  lastChannelToken : Option String
  hasStarted : Bool
  deriving DecidableEq, Repr

/-- Guard of the channel-error effect (line 423). -/
def channelErrorCond (snap : ChannelSnapshot) : Bool :=
  snap.isError && snap.errorIncludes401 && truthyStr snap.channelToken &&
    !snap.hasProcessedSuccess && !snap.capturedSuccessData

/-- FarcasterSignIn.tsx lines 422-439: advance the error count; from the
third consecutive 401 (with a URL present) recreate the channel — reset
`hasStarted` and the count, then `connect()` and `startSignIn()` — instead
of surfacing anything to the user. -/
def channelErrorEffect (st : ChannelState) (snap : ChannelSnapshot) :
    ChannelState × List AdapterAction :=
  if channelErrorCond snap then
    let newErrorCount := st.channelErrorCount + 1
    if newErrorCount ≥ 3 && truthyStr snap.url then
      ({ st with hasStarted := false, channelErrorCount := 0 },
       [.connect, .startSignIn])
    else
      ({ st with channelErrorCount := newErrorCount }, [])
  else (st, [])

/-- FarcasterSignIn.tsx lines 414-419: a new channel token resets the
error count. -/
def tokenTrackEffect (st : ChannelState) (channelToken : Option String) : ChannelState :=
  if truthyStr channelToken && channelToken != st.lastChannelToken then
    { st with lastChannelToken := channelToken, channelErrorCount := 0 }
  else st

/-- Dependencies of the reconnect effect (FarcasterSignIn.tsx lines 406-411). -/
structure ReconnectDeps where
  isPolling : Bool
  isConnected : Bool
  channelToken : Option String
  deriving DecidableEq, Repr

/-- Guard of the reconnect effect (line 407). -/
def reconnectGuard (d : ReconnectDeps) : Bool :=
  d.isPolling && !d.isConnected && truthyStr d.channelToken

/-- Reconnect calls issued over a sequence of dependency snapshots: the
effect body runs on the first render and whenever the snapshot changed,
and calls `reconnect()` exactly when its guard holds. -/
def reconnectCountAux (prev : Option ReconnectDeps) : List ReconnectDeps → Nat
  | [] => 0
  | d :: rest =>
    (if prev ≠ some d ∧ reconnectGuard d = true then 1 else 0) +
      reconnectCountAux (some d) rest

def reconnectCount (trace : List ReconnectDeps) : Nat :=
  reconnectCountAux none trace

/-- FarcasterSignIn.tsx lines 106-112: the credential pair `handleSuccess`
derives from the extracted payload — a function of fid and username only;
the extracted signature does not occur in it. -/
def socialCredentials (res : Payload) : String × String :=
  let ex := extractPayload res
  (farcasterEmail (ex.fid.getD 0), farcasterPassword (ex.fid.getD 0) (ex.username.getD ""))

/-! ## General lemmas about the store operations -/

theorem signIn_users (st : SessionStore) (e pw : String) :
    (signIn st e pw).1.users = st.users := by
  unfold signIn
  rcases h : st.users.find? (fun u => u.email == e && u.password == pw) with _ | u <;> simp [h]

theorem signIn_nextId (st : SessionStore) (e pw : String) :
    (signIn st e pw).1.nextId = st.nextId := by
  unfold signIn
  rcases h : st.users.find? (fun u => u.email == e && u.password == pw) with _ | u <;> simp [h]

theorem signIn_fail_eq (st : SessionStore) (e pw : String)
    (h : (signIn st e pw).2 = false) : (signIn st e pw).1 = st := by
  unfold signIn at h ⊢
  rcases hf : st.users.find? (fun u => u.email == e && u.password == pw) with _ | u
  · simp [hf]
  · simp [hf] at h

theorem signIn_true_iff (st : SessionStore) (e pw : String) :
    (signIn st e pw).2 = true ↔ ∃ u ∈ st.users, u.email = e ∧ u.password = pw := by
  unfold signIn
  rcases hf : st.users.find? (fun u => u.email == e && u.password == pw) with _ | u
  · simp only [hf, Bool.false_eq_true, false_iff]
    simp only [List.find?_eq_none] at hf
    rintro ⟨u, hu, he, hp⟩
    have := hf u hu
    simp [he, hp] at this
  · have hmem := List.mem_of_find?_eq_some hf
    have hpred := List.find?_some hf
    simp only [Bool.and_eq_true, beq_iff_eq] at hpred
    simp only [hf, true_iff]
    exact ⟨u, hmem, hpred.1, hpred.2⟩

theorem signIn_success_current (st : SessionStore) (e pw : String)
    (h : (signIn st e pw).2 = true) :
    ∃ u ∈ st.users, u.email = e ∧ u.password = pw ∧
      (signIn st e pw).1.current = some u.id := by
  unfold signIn at h ⊢
  rcases hf : st.users.find? (fun u => u.email == e && u.password == pw) with _ | u
  · simp [hf] at h
  · have hmem := List.mem_of_find?_eq_some hf
    have hpred := List.find?_some hf
    simp only [Bool.and_eq_true, beq_iff_eq] at hpred
    exact ⟨u, hmem, hpred.1, hpred.2, by simp [hf]⟩

theorem signUp_already (st : SessionStore) (e pw : String)
    (h : ∃ u ∈ st.users, u.email = e) :
    signUp st e pw = (st, .alreadyRegistered) := by
  unfold signUp
  rcases hf : st.users.find? (fun u => u.email == e) with _ | u
  · simp only [List.find?_eq_none] at hf
    obtain ⟨u, hu, he⟩ := h
    have := hf u hu
    simp [he] at this
  · simp [hf]

theorem resetPassword_signIn (st : SessionStore) (e newpw : String)
    (h : ∃ u ∈ st.users, u.email = e) :
    (signIn (resetFarcasterPassword st e newpw) e newpw).2 = true := by
  unfold resetFarcasterPassword
  rcases hf : st.users.find? (fun u => u.email == e) with _ | u
  · simp only [List.find?_eq_none] at hf
    obtain ⟨u, hu, he⟩ := h
    have := hf u hu
    simp [he] at this
  · have hmem := List.mem_of_find?_eq_some hf
    have hpred := List.find?_some hf
    simp only [beq_iff_eq] at hpred
    rw [signIn_true_iff]
    refine ⟨{ u with password := newpw }, ?_, hpred, rfl⟩
    simp only [hf]
    have : ({ u with password := newpw } : AuthUser) =
        (fun v => if v.id == u.id then { v with password := newpw } else v) u := by
      simp
    rw [this]
    exact List.mem_map_of_mem _ hmem

theorem resetPassword_current (st : SessionStore) (e newpw : String) :
    (resetFarcasterPassword st e newpw).current = st.current := by
  unfold resetFarcasterPassword
  rcases hf : st.users.find? (fun u => u.email == e) with _ | u <;> simp [hf]

set_option maxRecDepth 16384

theorem append_mid_ne (w x y m r : String) (hxy : x ≠ y) :
    w ++ x ++ m ++ r ≠ w ++ y ++ m ++ r := by
  intro h
  apply hxy
  have hd := congrArg String.data h
  simp only [String.data_append] at hd
  have h1 := List.append_cancel_right hd
  have h2 := List.append_cancel_right h1
  have h3 := List.append_cancel_left h2
  cases x
  cases y
  simp only at h3
  simp [h3]

/-- C2: the social credential derivation is a function of `(fid, username)`
only — two payloads agreeing on the extracted fid and username but carrying
arbitrarily different signature material derive the identical credential
pair, with identity key `farcaster_<fid>@faragent.local`. -/
theorem social_derivation_signature_independent (fid : Nat) (username : String)
    (p1 p2 : Payload)
    (h1 : (extractPayload p1).fid = some fid)
    (h2 : (extractPayload p1).username = some username)
    (h3 : (extractPayload p2).fid = some fid)
    (h4 : (extractPayload p2).username = some username) :
    socialCredentials p1 = socialCredentials p2 ∧
    (socialCredentials p1).1 = "farcaster_" ++ toString fid ++ "@faragent.local" ∧
    (socialCredentials p1).2 = strTake ("fc_" ++ toString fid ++ "_" ++ username) 50 := by
  refine ⟨?_, ?_, ?_⟩ <;>
    simp [socialCredentials, h1, h2, h3, h4, farcasterEmail, farcasterPassword]

/-- Witness for C2: two payloads for fid 7 / handle "alice", one with a
signature and one without, derive the same credential pair. -/
theorem social_derivation_signature_independent_witness :
    (extractPayload { fid := some 7, username := some "alice", displayName := none,
                      pfpUrl := none, signature := some "0xproofone", metadata := none,
                      signatureParams := none }).fid = some 7 ∧
    (extractPayload { fid := some 7, username := some "alice", displayName := none,
                      pfpUrl := none, signature := none, metadata := none,
                      signatureParams := none }).fid = some 7 ∧
    socialCredentials { fid := some 7, username := some "alice", displayName := none,
                        pfpUrl := none, signature := some "0xproofone", metadata := none,
                        signatureParams := none } =
      socialCredentials { fid := some 7, username := some "alice", displayName := none,
                          pfpUrl := none, signature := none, metadata := none,
                          signatureParams := none } :=
  ⟨by decide, by decide,
   (social_derivation_signature_independent 7 "alice" _ _ (by decide) (by decide)
      (by decide) (by decide)).1⟩

/-- C3: the wallet credential derivation is deterministic, its identity key
is `wallet_<address body>@faragent.local`, its secret combines the 40-char
signature prefix with the first 4 address characters, and the secret is not
a function of the address alone: for every address there are distinct
signatures deriving distinct secrets. -/
theorem wallet_credential_derivation (address signature : String) :
    deriveWalletCredentials address signature = deriveWalletCredentials address signature ∧
    (deriveWalletCredentials address signature).1 =
      "wallet_" ++ addressBody address ++ "@faragent.local" ∧
    (deriveWalletCredentials address signature).2 =
      "w_" ++ strTake (replaceFirst (normalizeSignature signature) "0x" "") 40 ++ "_" ++
        strTake (addressBody address) 4 ∧
    ∃ s1 s2 : String, s1 ≠ s2 ∧
      (deriveWalletCredentials address s1).2 ≠ (deriveWalletCredentials address s2).2 := by
  refine ⟨rfl, rfl, rfl, "0xaaaaaaaaaaaaaaaaaaaaaaaaaaaaaaaaaaaaaaaa", "0xbbbbbbbbbbbbbbbbbbbbbbbbbbbbbbbbbbbbbbbb", by decide, ?_⟩
  have e1 : strTake (replaceFirst (normalizeSignature "0xaaaaaaaaaaaaaaaaaaaaaaaaaaaaaaaaaaaaaaaa") "0x" "") 40 =
      "aaaaaaaaaaaaaaaaaaaaaaaaaaaaaaaaaaaaaaaa" := by decide
  have e2 : strTake (replaceFirst (normalizeSignature "0xbbbbbbbbbbbbbbbbbbbbbbbbbbbbbbbbbbbbbbbb") "0x" "") 40 =
      "bbbbbbbbbbbbbbbbbbbbbbbbbbbbbbbbbbbbbbbb" := by decide
  show walletPassword address "0xaaaaaaaaaaaaaaaaaaaaaaaaaaaaaaaaaaaaaaaa" ≠
    walletPassword address "0xbbbbbbbbbbbbbbbbbbbbbbbbbbbbbbbbbbbbbbbb"
  simp only [walletPassword, e1, e2]
  exact append_mid_ne "w_" "aaaaaaaaaaaaaaaaaaaaaaaaaaaaaaaaaaaaaaaa" "bbbbbbbbbbbbbbbbbbbbbbbbbbbbbbbbbbbbbbbb" "_" _ (by decide)

/-- C10: the derived secrets are truncations — the social secret is
`fc_<fid>_<username>` cut to 50 characters, the wallet secret uses only
the first 40 signature characters and first 4 address characters — so
distinct inputs can collide: distinct usernames agreeing up to the
50-character boundary, and distinct signatures sharing a 40-character
prefix, derive identical secrets. -/
theorem derived_secret_truncation_collisions :
    (∀ fid username, farcasterPassword fid username =
      strTake ("fc_" ++ toString fid ++ "_" ++ username) 50) ∧
    (∀ address signature, walletPassword address signature =
      "w_" ++ strTake (replaceFirst (normalizeSignature signature) "0x" "") 40 ++ "_" ++
        strTake (addressBody address) 4) ∧
    (∃ u1 u2 : String, u1 ≠ u2 ∧ farcasterPassword 1 u1 = farcasterPassword 1 u2) ∧
    (∃ s1 s2 : String, s1 ≠ s2 ∧
      walletPassword "0xabcdef" s1 = walletPassword "0xabcdef" s2) := by
  refine ⟨fun _ _ => rfl, fun _ _ => rfl,
    ⟨"aaaaaaaaaaaaaaaaaaaaaaaaaaaaaaaaaaaaaaaaaaaaab", "aaaaaaaaaaaaaaaaaaaaaaaaaaaaaaaaaaaaaaaaaaaaac", by decide, by decide⟩,
    ⟨"0xcccccccccccccccccccccccccccccccccccccccc1", "0xcccccccccccccccccccccccccccccccccccccccc2", by decide, by decide⟩⟩

/-- C7 counterexample: a payload that carries fid and username under the
`signatureParams` shape — one of the three known shapes — is nonetheless
declared invalid, because a present-but-incomplete `metadata` object
commits extraction to the metadata branch and masks `signatureParams`. -/
theorem payload_extraction_counterexample :
    carriesSigParams { fid := none, username := none, displayName := none,
                       pfpUrl := none, signature := none,
                       metadata := some { fid := none, username := none,
                                          displayName := none, pfpUrl := none,
                                          signature := none },
                       signatureParams := some { fid := some 1, username := some "alice",
                                                 displayName := none, pfpUrl := none,
                                                 signature := none,
                                                 siweMessageSignature := none,
                                                 messageSignature := none } } ∧
    payloadValid { fid := none, username := none, displayName := none,
                   pfpUrl := none, signature := none,
                   metadata := some { fid := none, username := none,
                                      displayName := none, pfpUrl := none,
                                      signature := none },
                   signatureParams := some { fid := some 1, username := some "alice",
                                             displayName := none, pfpUrl := none,
                                             signature := none,
                                             siweMessageSignature := none,
                                             messageSignature := none } } = false :=
  ⟨⟨_, rfl, by decide, by decide⟩, by decide⟩

/-- C7 amended: the extractor commits to the first present shape in the
order flat, metadata, signatureParams. A payload carrying fid and username
in the flat or metadata shape is always accepted; one carrying them under
`signatureParams` is accepted provided no metadata object is present.
Conversely, a rejected payload carries them in neither the flat nor the
metadata shape (only the `signatureParams` shape can be masked, by a
present but fid/username-lacking metadata object). -/
theorem payload_extraction_shape_order (res : Payload) :
    (carriesFlat res → payloadValid res = true) ∧
    (carriesMetadata res → payloadValid res = true) ∧
    (res.metadata = none → carriesSigParams res → payloadValid res = true) ∧
    (payloadValid res = false → ¬ carriesFlat res ∧ ¬ carriesMetadata res) := by
  have hflatcase : carriesFlat res → payloadValid res = true := by
    rintro ⟨hf, hu⟩
    simp [payloadValid, extractPayload, hf, hu]
  have hmetacase : carriesMetadata res → payloadValid res = true := by
    rintro ⟨meta, hm, hf, hu⟩
    by_cases hflat : (truthyNat res.fid && truthyStr res.username) = true
    · simp [payloadValid, extractPayload, hflat]
    · simp [payloadValid, extractPayload, hflat, hm, hf, hu]
  have hparamcase : res.metadata = none → carriesSigParams res →
      payloadValid res = true := by
    rintro hm ⟨params, hp, hf, hu⟩
    by_cases hflat : (truthyNat res.fid && truthyStr res.username) = true
    · simp [payloadValid, extractPayload, hflat]
    · simp [payloadValid, extractPayload, hflat, hm, hp, orNat, orStr, hf, hu]
  refine ⟨hflatcase, hmetacase, hparamcase, fun hinv => ⟨fun hc => ?_, fun hc => ?_⟩⟩
  · rw [hflatcase hc] at hinv
    cases hinv
  · rw [hmetacase hc] at hinv
    cases hinv

/-- Witness for the amended C7: a flat payload and a metadata-nested payload
are both accepted. -/
theorem payload_extraction_shape_order_witness :
    payloadValid { fid := some 3, username := some "bob", displayName := none,
                   pfpUrl := none, signature := none, metadata := none,
                   signatureParams := none } = true ∧
    payloadValid { fid := none, username := none, displayName := none,
                   pfpUrl := none, signature := none,
                   metadata := some { fid := some 3, username := some "bob",
                                      displayName := none, pfpUrl := none,
                                      signature := none },
                   signatureParams := none } = true :=
  ⟨(payload_extraction_shape_order _).1 ⟨by decide, by decide⟩,
   (payload_extraction_shape_order _).2.1 ⟨_, rfl, by decide, by decide⟩⟩

/-- C8: three consecutive 401 channel errors on the same channel token make
the adapter recreate the channel — `hasStarted` drops back (Connecting),
the error count resets, `connect()` and `startSignIn()` are issued, and no
error is surfaced — while fewer than three only advance the count, and a
new channel token resets the count to zero. -/
theorem channel_error_recovery (st : ChannelState) (snap : ChannelSnapshot) (t : String)
    (hguard : channelErrorCond snap = true) (hurl : truthyStr snap.url = true) :
    (st.channelErrorCount + 1 < 3 →
      channelErrorEffect st snap =
        ({ st with channelErrorCount := st.channelErrorCount + 1 }, [])) ∧
    (st.channelErrorCount = 0 →
      (channelErrorEffect st snap).2 = [] ∧
      (channelErrorEffect (channelErrorEffect st snap).1 snap).2 = [] ∧
      (channelErrorEffect (channelErrorEffect (channelErrorEffect st snap).1 snap).1
          snap).1.hasStarted = false ∧
      (channelErrorEffect (channelErrorEffect (channelErrorEffect st snap).1 snap).1
          snap).1.channelErrorCount = 0 ∧
      (channelErrorEffect (channelErrorEffect (channelErrorEffect st snap).1 snap).1
          snap).2 = [AdapterAction.connect, AdapterAction.startSignIn]) ∧
    (t ≠ "" → some t ≠ st.lastChannelToken →
      tokenTrackEffect st (some t) =
        { st with lastChannelToken := some t, channelErrorCount := 0 }) := by
  refine ⟨?_, ?_, ?_⟩
  · intro hlt
    have h3 : (st.channelErrorCount + 1 ≥ 3) = False := by
      simp only [ge_iff_le, eq_iff_iff, iff_false, not_le]
      exact hlt
    simp [channelErrorEffect, hguard, Nat.not_le.mpr hlt]
  · intro h0
    have s1 : channelErrorEffect st snap =
        ({ st with channelErrorCount := 1 }, []) := by
      simp [channelErrorEffect, hguard, h0]
    have s2 : channelErrorEffect { st with channelErrorCount := 1 } snap =
        ({ st with channelErrorCount := 2 }, []) := by
      simp [channelErrorEffect, hguard]
    have s3 : channelErrorEffect { st with channelErrorCount := 2 } snap =
        ({ st with hasStarted := false, channelErrorCount := 0 },
         [AdapterAction.connect, AdapterAction.startSignIn]) := by
      simp [channelErrorEffect, hguard, hurl]
    rw [s1, s2, s3]
    exact ⟨rfl, rfl, rfl, rfl, rfl⟩
  · intro ht hne
    have : (some t != st.lastChannelToken) = true := by
      simp [bne_iff_ne, hne]
    simp [tokenTrackEffect, truthyStr, ht, this]

/-- Witness for C8: a concrete escalation from zero errors to channel
recreation, and a concrete token change resetting a positive count. -/
theorem channel_error_recovery_witness :
    (channelErrorEffect
        (channelErrorEffect
          (channelErrorEffect
            { channelErrorCount := 0, lastChannelToken := some "tok1", hasStarted := true }
            { isError := true, errorIncludes401 := true, channelToken := some "tok1",
              url := some "wc:uri", hasProcessedSuccess := false,
              capturedSuccessData := false }).1
          { isError := true, errorIncludes401 := true, channelToken := some "tok1",
            url := some "wc:uri", hasProcessedSuccess := false,
            capturedSuccessData := false }).1
        { isError := true, errorIncludes401 := true, channelToken := some "tok1",
          url := some "wc:uri", hasProcessedSuccess := false,
          capturedSuccessData := false }).2 =
      [AdapterAction.connect, AdapterAction.startSignIn] ∧
    tokenTrackEffect
        { channelErrorCount := 2, lastChannelToken := some "tok1", hasStarted := true }
        (some "tok2") =
      { channelErrorCount := 0, lastChannelToken := some "tok2", hasStarted := true } :=
  ⟨((channel_error_recovery
      { channelErrorCount := 0, lastChannelToken := some "tok1", hasStarted := true }
      { isError := true, errorIncludes401 := true, channelToken := some "tok1",
        url := some "wc:uri", hasProcessedSuccess := false, capturedSuccessData := false }
      "tok2" (by decide) (by decide)).2.1 rfl).2.2.2.2,
   (channel_error_recovery
      { channelErrorCount := 2, lastChannelToken := some "tok1", hasStarted := true }
      { isError := true, errorIncludes401 := true, channelToken := some "tok1",
        url := some "wc:uri", hasProcessedSuccess := false, capturedSuccessData := false }
      "tok2" (by decide) (by decide)).2.2 (by decide) (by decide)⟩

/-- The dependency snapshot the effect system last saw after running
through a list of renders. -/
def lastSnap (prev : Option ReconnectDeps) : List ReconnectDeps → Option ReconnectDeps
  | [] => prev
  | d :: rest => lastSnap (some d) rest

theorem reconnectCountAux_append (prev : Option ReconnectDeps)
    (xs ys : List ReconnectDeps) :
    reconnectCountAux prev (xs ++ ys) =
      reconnectCountAux prev xs + reconnectCountAux (lastSnap prev xs) ys := by
  induction xs generalizing prev with
  | nil => simp [reconnectCountAux, lastSnap]
  | cons a l ih => simp [reconnectCountAux, lastSnap, ih, Nat.add_assoc]

theorem reconnectCountAux_replicate_self (d : ReconnectDeps) (m : Nat) :
    reconnectCountAux (some d) (List.replicate m d) = 0 := by
  induction m with
  | zero => simp [reconnectCountAux]
  | succ k ih => simp [List.replicate, reconnectCountAux, ih]

theorem lastSnap_append_single (prev : Option ReconnectDeps)
    (xs : List ReconnectDeps) (d : ReconnectDeps) :
    lastSnap prev (xs ++ [d]) = some d := by
  induction xs generalizing prev with
  | nil => rfl
  | cons a l ih => simp [lastSnap, ih]

theorem lastSnap_none_getLast (xs : List ReconnectDeps) (prev : Option ReconnectDeps) :
    lastSnap prev xs = match xs.getLast? with | some x => some x | none => prev := by
  induction xs generalizing prev with
  | nil => rfl
  | cons a l ih =>
    cases l with
    | nil => simp [lastSnap, ih]
    | cons b t => simpa [lastSnap, List.getLast?_cons_cons] using ih (some a)

/-- C9: the reconnect effect fires only when its dependency snapshot
changes. When the transport disconnects while polling (guard true) and the
disconnect then persists unchanged, the whole run issues no reconnect
beyond the one for the disconnection itself: repeating the disconnected
snapshot adds zero reconnects, the disconnection adds at most one, and
exactly one when it is a fresh snapshot change. -/
theorem single_reconnect_per_disconnection (pre : List ReconnectDeps)
    (d : ReconnectDeps) (m : Nat) (hguard : reconnectGuard d = true) :
    reconnectCount (pre ++ d :: List.replicate m d) = reconnectCount (pre ++ [d]) ∧
    reconnectCount (pre ++ [d]) ≤ reconnectCount pre + 1 ∧
    (pre.getLast? ≠ some d →
      reconnectCount (pre ++ [d]) = reconnectCount pre + 1) := by
  refine ⟨?_, ?_, ?_⟩
  · have hsplit : pre ++ d :: List.replicate m d = (pre ++ [d]) ++ List.replicate m d := by
      simp
    rw [hsplit]
    unfold reconnectCount
    rw [reconnectCountAux_append, lastSnap_append_single,
      reconnectCountAux_replicate_self]
    omega
  · unfold reconnectCount
    rw [reconnectCountAux_append]
    have : reconnectCountAux (lastSnap none pre) [d] ≤ 1 := by
      simp only [reconnectCountAux]
      split <;> simp
    omega
  · intro hlast
    unfold reconnectCount
    rw [reconnectCountAux_append]
    have hne : lastSnap none pre ≠ some d := by
      rw [lastSnap_none_getLast]
      rcases h : pre.getLast? with _ | x
      · simp
      · rw [h] at hlast
        simpa using hlast
    have : reconnectCountAux (lastSnap none pre) [d] = 1 := by
      simp [reconnectCountAux, hne, hguard]
    omega

/-- Witness for C9: a concrete run — connect, poll, disconnect, then the
disconnect persists for three more renders — issues exactly one reconnect. -/
theorem single_reconnect_per_disconnection_witness :
    reconnectCount
        ([{ isPolling := true, isConnected := true, channelToken := some "tok" }] ++
          { isPolling := true, isConnected := false, channelToken := some "tok" } ::
            List.replicate 3
              { isPolling := true, isConnected := false, channelToken := some "tok" }) =
      reconnectCount
        [{ isPolling := true, isConnected := true, channelToken := some "tok" },
         { isPolling := true, isConnected := false, channelToken := some "tok" }] ∧
    reconnectCount
        [{ isPolling := true, isConnected := true, channelToken := some "tok" },
         { isPolling := true, isConnected := false, channelToken := some "tok" }] = 0 + 1 :=
  ⟨(single_reconnect_per_disconnection
      [{ isPolling := true, isConnected := true, channelToken := some "tok" }]
      { isPolling := true, isConnected := false, channelToken := some "tok" }
      3 (by decide)).1,
   by
    have h := (single_reconnect_per_disconnection
      [{ isPolling := true, isConnected := true, channelToken := some "tok" }]
      { isPolling := true, isConnected := false, channelToken := some "tok" }
      3 (by decide)).2.2 (by decide)
    have h0 : reconnectCount
        [{ isPolling := true, isConnected := true, channelToken := some "tok" }] = 0 := by
      decide
    exact h.trans (by rw [h0])⟩

/-! ## Lemmas about the Link Store upsert -/

theorem find_map_merge (l : List LinkRecord) (p : UpdatePayload) (r : LinkRecord)
    (hr : l.find? (fun q => q.user_id == p.user_id) = some r) :
    (l.map (fun q => if q.user_id == p.user_id then mergeRow q p else q)).find?
        (fun q => q.user_id == p.user_id) = some (mergeRow r p) := by
  induction l with
  | nil => simp at hr
  | cons a l ih =>
    by_cases ha : (a.user_id == p.user_id) = true
    · simp only [List.find?_cons, ha, cond_true] at hr
      cases hr
      have hm : ((mergeRow r p).user_id == p.user_id) = true := by
        simpa [mergeRow] using ha
      simp only [List.map_cons, ha, if_pos, List.find?_cons, hm, cond_true]
    · have ha' : (a.user_id == p.user_id) = false := by
        simpa using ha
      simp only [List.find?_cons, ha', cond_false] at hr
      simp only [List.map_cons, ha', Bool.false_eq_true, if_neg, not_false_iff,
        List.find?_cons, cond_false]
      exact ih hr

theorem findByUserId_applyUpsert (ls : LinkStore) (p : UpdatePayload) (uid : Nat)
    (r : LinkRecord) (hp : p.user_id = uid) (hr : findByUserId ls uid = some r) :
    findByUserId (applyUpsert ls p) uid = some (mergeRow r p) := by
  subst hp
  unfold findByUserId at hr ⊢
  unfold applyUpsert
  rw [hr]
  exact find_map_merge ls.rows p r hr

theorem walletUpdatePayload_user_id (uid : Nat) (addr : String)
    (cc : Option LinkRecord) : (walletUpdatePayload uid addr cc).user_id = uid := by
  unfold walletUpdatePayload
  rcases cc with _ | c
  · rfl
  · by_cases h : truthyNat c.farcaster_fid = true <;> simp [h]

/-- C6: the Link Record upsert at the end of each linking flow preserves
the other identity kind's fields. Linking a wallet to an account whose row
has its social identity set leaves all five social columns unchanged (and
writes the wallet address); linking a social identity leaves an existing
`wallet_address` unchanged (and writes the social columns). -/
theorem upsert_preserves_other_identity (ls : LinkStore) (uid fid : Nat)
    (username : String) (displayName pfpUrl : Option String) (addr : String)
    (r : LinkRecord) (hr : findByUserId ls uid = some r)
    (hfid : truthyNat r.farcaster_fid = true) :
    (∃ r1, findByUserId (walletFlowUpsert ls uid addr) uid = some r1 ∧
      r1.wallet_address = some addr ∧
      r1.farcaster_fid = r.farcaster_fid ∧
      r1.farcaster_username = r.farcaster_username ∧
      r1.farcaster_display_name = r.farcaster_display_name ∧
      r1.farcaster_pfp_url = r.farcaster_pfp_url ∧
      r1.farcaster_signer_uuid = r.farcaster_signer_uuid) ∧
    (∃ r2, findByUserId (socialFlowUpsert ls uid fid username displayName pfpUrl) uid =
        some r2 ∧
      r2.wallet_address = r.wallet_address ∧
      r2.farcaster_fid = some fid ∧ r2.farcaster_username = some username) := by
  constructor
  · refine ⟨mergeRow r (walletUpdatePayload uid addr (findByUserId ls uid)), ?_, ?_⟩
    · exact findByUserId_applyUpsert ls _ uid r (walletUpdatePayload_user_id uid addr _) hr
    · rw [hr]
      simp [mergeRow, walletUpdatePayload, hfid]
  · refine ⟨mergeRow r (socialUpdatePayload uid fid username displayName pfpUrl), ?_, ?_⟩
    · exact findByUserId_applyUpsert ls _ uid r rfl hr
    · simp [mergeRow, socialUpdatePayload]

/-- Witness for C6: a concrete row with social fields set keeps them across
a wallet link, and keeps its wallet across a social link. -/
theorem upsert_preserves_other_identity_witness :
    findByUserId { rows := [{ user_id := 5, wallet_address := some "0xold",
                              farcaster_fid := some 9, farcaster_username := some "bob",
                              farcaster_display_name := some "Bob",
                              farcaster_pfp_url := some "p", farcaster_signer_uuid := some "s" }] }
        5 = some { user_id := 5, wallet_address := some "0xold",
                   farcaster_fid := some 9, farcaster_username := some "bob",
                   farcaster_display_name := some "Bob",
                   farcaster_pfp_url := some "p", farcaster_signer_uuid := some "s" } ∧
    (∃ r1, findByUserId
        (walletFlowUpsert { rows := [{ user_id := 5, wallet_address := some "0xold",
                                       farcaster_fid := some 9,
                                       farcaster_username := some "bob",
                                       farcaster_display_name := some "Bob",
                                       farcaster_pfp_url := some "p",
                                       farcaster_signer_uuid := some "s" }] } 5 "0xnew")
        5 = some r1 ∧
      r1.wallet_address = some "0xnew" ∧
      r1.farcaster_fid = some 9 ∧
      r1.farcaster_username = some "bob" ∧
      r1.farcaster_display_name = some "Bob" ∧
      r1.farcaster_pfp_url = some "p" ∧
      r1.farcaster_signer_uuid = some "s") := by
  refine ⟨by decide, ?_⟩
  have h := (upsert_preserves_other_identity
    { rows := [{ user_id := 5, wallet_address := some "0xold",
                 farcaster_fid := some 9, farcaster_username := some "bob",
                 farcaster_display_name := some "Bob",
                 farcaster_pfp_url := some "p", farcaster_signer_uuid := some "s" }] }
    5 9 "bob" (some "Bob") (some "p") "0xnew"
    { user_id := 5, wallet_address := some "0xold",
      farcaster_fid := some 9, farcaster_username := some "bob",
      farcaster_display_name := some "Bob",
      farcaster_pfp_url := some "p", farcaster_signer_uuid := some "s" }
    (by decide) (by decide)).1
  exact h

/-! ## Lemmas about the social flow and delivery idempotency -/

theorem finishSocial_facts (st : ComponentState) (ex : Extracted) (fid : Nat)
    (u : String) (tr : List AuthAction) :
    (finishSocial st ex fid u tr).1.hasProcessedSuccess = st.hasProcessedSuccess ∧
    (finishSocial st ex fid u tr).1.session = st.session ∧
    (finishSocial st ex fid u tr).2.1 = .success ∧
    upsertCount (finishSocial st ex fid u tr).2.2 ≤ upsertCount tr + 1 ∧
    (∀ a ∈ tr, a ∈ (finishSocial st ex fid u tr).2.2) := by
  unfold finishSocial
  rcases hc : st.session.current with _ | uid
  · simp [upsertCount]
  · simp [upsertCount, List.filter_append]
    exact fun a ha => Or.inl ha

theorem socialFallbackLoop_no_upsert (s : SessionStore) (femail fcur : String)
    (l : List String) :
    upsertCount (socialFallbackLoop s femail fcur l).2.2 = 0 := by
  induction l generalizing s with
  | nil => rfl
  | cons pw rest ih =>
    unfold socialFallbackLoop
    rcases hsi : signIn s femail pw with ⟨s1, ok⟩
    rcases ok with _ | _
    · simp only [hsi]
      simpa [upsertCount] using ih s1
    · by_cases hpw : (pw != fcur) = true <;> simp [hsi, hpw, upsertCount]

theorem handleSuccess_run (st : ComponentState) (p : Payload)
    (hflag : st.hasProcessedSuccess = false) (hvalid : payloadValid p = true) :
    (handleSuccess st p).1.hasProcessedSuccess = true ∧
    (handleSuccess st p).2.1 ≠ .skipped ∧
    (handleSuccess st p).2.1 ≠ .invalidPayload ∧
    upsertCount (handleSuccess st p).2.2 ≤ 1 := by
  unfold handleSuccess
  simp only [payloadValid] at hvalid
  simp only [hflag, Bool.false_eq_true, if_false, hvalid, Bool.not_true]
  rcases h1 : signIn st.session (farcasterEmail ((extractPayload p).fid.getD 0))
      (farcasterPassword ((extractPayload p).fid.getD 0)
        ((extractPayload p).username.getD "")) with ⟨s1, ok1⟩
  rcases ok1 with _ | _
  · simp only [h1, Bool.false_eq_true, if_false]
    rcases h2 : signUp s1 (farcasterEmail ((extractPayload p).fid.getD 0))
        (farcasterPassword ((extractPayload p).fid.getD 0)
          ((extractPayload p).username.getD "")) with ⟨s2, r2⟩
    rcases r2 with _ | _
    · simp only [h2]
      refine ⟨((finishSocial_facts _ _ _ _ _).1).trans rfl, ?_, ?_, ?_⟩
      · rw [(finishSocial_facts _ _ _ _ _).2.2.1]
        simp
      · rw [(finishSocial_facts _ _ _ _ _).2.2.1]
        simp
      · refine le_trans (finishSocial_facts _ _ _ _ _).2.2.2.1 ?_
        simp [upsertCount]
    · simp only [h2]
      rcases h3 : socialFallbackLoop s2
          (farcasterEmail ((extractPayload p).fid.getD 0))
          (farcasterPassword ((extractPayload p).fid.getD 0)
            ((extractPayload p).username.getD ""))
          (socialAltPasswords ((extractPayload p).fid.getD 0)
            ((extractPayload p).username.getD "") (extractPayload p).signature)
          with ⟨s3, ok3, tr3⟩
      have hl : upsertCount tr3 = 0 := by
        have h := socialFallbackLoop_no_upsert s2
          (farcasterEmail ((extractPayload p).fid.getD 0))
          (farcasterPassword ((extractPayload p).fid.getD 0)
            ((extractPayload p).username.getD ""))
          (socialAltPasswords ((extractPayload p).fid.getD 0)
            ((extractPayload p).username.getD "") (extractPayload p).signature)
        rw [h3] at h
        exact h
      have htr : ∀ tr0 : List AuthAction, upsertCount tr0 = 0 →
          upsertCount (tr0 ++ tr3) = 0 := by
        intro tr0 h0
        simp only [upsertCount, List.filter_append, List.length_append] at h0 hl ⊢
        omega
      have h0 : upsertCount
          [AuthAction.signInAttempt (farcasterEmail ((extractPayload p).fid.getD 0))
              (farcasterPassword ((extractPayload p).fid.getD 0)
                ((extractPayload p).username.getD "")),
           AuthAction.signUpAttempt (farcasterEmail ((extractPayload p).fid.getD 0))
              (farcasterPassword ((extractPayload p).fid.getD 0)
                ((extractPayload p).username.getD ""))] = 0 := by
        simp [upsertCount]
      rcases ok3 with _ | _
      · simp only [h3, Bool.false_eq_true, if_false]
        refine ⟨by simp, by simp, by simp, ?_⟩
        rw [htr _ h0]
        omega
      · simp only [h3, if_true]
        refine ⟨((finishSocial_facts _ _ _ _ _).1).trans rfl, ?_, ?_, ?_⟩
        · rw [(finishSocial_facts _ _ _ _ _).2.2.1]
          simp
        · rw [(finishSocial_facts _ _ _ _ _).2.2.1]
          simp
        · refine le_trans (finishSocial_facts _ _ _ _ _).2.2.2.1 ?_
          rw [htr _ h0]
  · simp only [h1, if_true]
    refine ⟨((finishSocial_facts _ _ _ _ _).1).trans rfl, ?_, ?_, ?_⟩
    · rw [(finishSocial_facts _ _ _ _ _).2.2.1]
      simp
    · rw [(finishSocial_facts _ _ _ _ _).2.2.1]
      simp
    · refine le_trans (finishSocial_facts _ _ _ _ _).2.2.2.1 ?_
      simp [upsertCount]

theorem handleSuccess_skip (st : ComponentState) (p : Payload)
    (h : st.hasProcessedSuccess = true) :
    handleSuccess st p = (st, .skipped, []) := by
  unfold handleSuccess
  simp [h]

theorem deliverList_skips (st : ComponentState) (h : st.hasProcessedSuccess = true)
    (ps : List Payload) :
    deliverList st ps = (st, ps.map (fun _ => SocialResult.skipped), []) := by
  induction ps with
  | nil => rfl
  | cons q qs ih => simp [deliverList, handleSuccess_skip st q h, ih]

/-- C5: success handling is idempotent within one sign-in session.
Delivering a valid success payload `n ≥ 1` times (callback plus fallback
poll re-deliveries) leaves the final component state and the whole action
trace identical to a single delivery; exactly one delivery runs the
processing body, and at most one Link Record upsert occurs in total —
because the session-scoped `hasProcessedSuccess` flag is checked and set
before any side effect runs. -/
theorem success_delivery_idempotent (st : ComponentState) (p : Payload) (n : Nat)
    (hflag : st.hasProcessedSuccess = false) (hvalid : payloadValid p = true)
    (hn : 1 ≤ n) :
    (deliverList st (List.replicate n p)).1 = (deliverList st [p]).1 ∧
    (deliverList st (List.replicate n p)).2.2 = (deliverList st [p]).2.2 ∧
    processedCount (deliverList st (List.replicate n p)).2.1 = 1 ∧
    upsertCount (deliverList st (List.replicate n p)).2.2 ≤ 1 := by
  obtain ⟨k, rfl⟩ : ∃ k, n = k + 1 := ⟨n - 1, by omega⟩
  have hrun := handleSuccess_run st p hflag hvalid
  rcases hh : handleSuccess st p with ⟨st1, res1, tr1⟩
  rw [hh] at hrun
  have hst1 : st1.hasProcessedSuccess = true := hrun.1
  have hskip := deliverList_skips st1 hst1 (List.replicate k p)
  have hdrep : deliverList st (List.replicate (k + 1) p) =
      (st1, res1 :: List.replicate k SocialResult.skipped, tr1) := by
    rw [List.replicate_succ]
    simp [deliverList, hh, hskip, List.map_const]
  have hone : deliverList st [p] = (st1, [res1], tr1) := by
    simp [deliverList, hh]
  rw [hdrep, hone]
  refine ⟨rfl, rfl, ?_, ?_⟩
  · have hres1 : (res1 != SocialResult.skipped &&
        res1 != SocialResult.invalidPayload) = true := by
      simp [bne_iff_ne, hrun.2.1, hrun.2.2.1]
    have hrest : (List.replicate k SocialResult.skipped).filter
        (fun r => r != SocialResult.skipped && r != SocialResult.invalidPayload) = [] := by
      induction k with
      | zero => rfl
      | succ j ih => simp [List.replicate_succ, ih]
    simp [processedCount, hres1, hrest]
  · exact hrun.2.2.2

/-- Witness for C5: a concrete valid payload delivered three times against
a fresh store is processed exactly once. -/
theorem success_delivery_idempotent_witness :
    payloadValid { fid := some 42, username := some "alice", displayName := some "Alice",
                   pfpUrl := none, signature := some "0xsig", metadata := none,
                   signatureParams := none } = true ∧
    processedCount
      (deliverList
        { session := { users := [], nextId := 1, current := none },
          links := { rows := [] }, hasProcessedSuccess := false }
        (List.replicate 3
          { fid := some 42, username := some "alice", displayName := some "Alice",
            pfpUrl := none, signature := some "0xsig", metadata := none,
            signatureParams := none })).2.1 = 1 :=
  ⟨by decide,
   (success_delivery_idempotent
     { session := { users := [], nextId := 1, current := none },
       links := { rows := [] }, hasProcessedSuccess := false }
     { fid := some 42, username := some "alice", displayName := some "Alice",
       pfpUrl := none, signature := some "0xsig", metadata := none,
       signatureParams := none }
     3 rfl (by decide) (by omega)).2.2.1⟩

theorem socialFallbackLoop_success (s : SessionStore) (femail fcur : String)
    (l : List String)
    (hcur : (signIn s femail fcur).2 = false)
    (h : ∃ pw ∈ l, (signIn s femail pw).2 = true) :
    (socialFallbackLoop s femail fcur l).2.1 = true ∧
    AuthAction.resetPasswordCall femail fcur ∈ (socialFallbackLoop s femail fcur l).2.2 ∧
    (signIn (socialFallbackLoop s femail fcur l).1 femail fcur).2 = true := by
  induction l with
  | nil => simp at h
  | cons pw rest ih =>
    unfold socialFallbackLoop
    rcases hsi : signIn s femail pw with ⟨s1, ok⟩
    rcases ok with _ | _
    · have hs1 : s1 = s := by
        have he := signIn_fail_eq s femail pw (by rw [hsi])
        rw [hsi] at he
        exact he
      simp only [hsi, Bool.false_eq_true, if_false, hs1]
      have hrest : ∃ q ∈ rest, (signIn s femail q).2 = true := by
        rcases h with ⟨q, hq, hq2⟩
        rcases List.mem_cons.mp hq with rfl | hqr
        · rw [hsi] at hq2
          cases hq2
        · exact ⟨q, hqr, hq2⟩
      have hc := ih hrest
      exact ⟨hc.1, by simp [hc.2.1], hc.2.2⟩
    · have hne : pw ≠ fcur := by
        intro hpwf
        rw [hpwf] at hsi
        rw [hsi] at hcur
        cases hcur
      have hbne : (pw != fcur) = true := by simp [bne_iff_ne, hne]
      simp only [hsi, if_true, hbne]
      refine ⟨by simp, by simp, ?_⟩
      apply resetPassword_signIn
      have hsucc : (signIn s femail pw).2 = true := by rw [hsi]
      obtain ⟨u, hu, hue, hup⟩ := (signIn_true_iff s femail pw).mp hsucc
      have husers : s1.users = s.users := by
        have he := signIn_users s femail pw
        rw [hsi] at he
        exact he
      rw [husers]
      exact ⟨u, hu, hue⟩

/-- C4: when sign-up for a social identity hits "already registered", the
flow iterates the ordered variant list — current formula first, then the
legacy formulas — signing in with each; on the first success (necessarily a
non-current variant here, since the current secret does not match) it calls
the password-reset function to store the current-variant secret, so a
subsequent sign-in with the current formula succeeds directly. -/
theorem legacy_variant_self_healing (st : ComponentState) (p : Payload)
    (fid : Nat) (username : String)
    (hflag : st.hasProcessedSuccess = false)
    (hfid : (extractPayload p).fid = some fid) (hf0 : fid ≠ 0)
    (huser : (extractPayload p).username = some username) (hu0 : username ≠ "")
    (hcur : (signIn st.session (farcasterEmail fid)
      (farcasterPassword fid username)).2 = false)
    (hleg : ∃ pw ∈ socialAltPasswords fid username (extractPayload p).signature,
      (signIn st.session (farcasterEmail fid) pw).2 = true) :
    (socialAltPasswords fid username (extractPayload p).signature).head? =
      some (farcasterPassword fid username) ∧
    (handleSuccess st p).2.1 = .success ∧
    AuthAction.resetPasswordCall (farcasterEmail fid) (farcasterPassword fid username) ∈
      (handleSuccess st p).2.2 ∧
    (signIn (handleSuccess st p).1.session (farcasterEmail fid)
      (farcasterPassword fid username)).2 = true := by
  have ht1 : truthyNat (some fid) = true := by simp [truthyNat, hf0]
  have ht2 : truthyStr (some username) = true := by simp [truthyStr, hu0]
  have hhead : (socialAltPasswords fid username (extractPayload p).signature).head? =
      some (farcasterPassword fid username) := by
    unfold socialAltPasswords
    rfl
  refine ⟨hhead, ?_⟩
  unfold handleSuccess
  simp only [hflag, Bool.false_eq_true, if_false, hfid, huser, ht1, ht2,
    Bool.and_self, Bool.not_true, Option.getD_some]
  rcases h1 : signIn st.session (farcasterEmail fid) (farcasterPassword fid username)
      with ⟨s1, ok1⟩
  rw [h1] at hcur
  have hok1 : ok1 = false := hcur
  subst hok1
  have hs1 : s1 = st.session := by
    have he := signIn_fail_eq st.session (farcasterEmail fid)
      (farcasterPassword fid username) (by rw [h1])
    rw [h1] at he
    exact he
  subst hs1
  have hereg : ∃ u ∈ st.session.users, u.email = farcasterEmail fid := by
    obtain ⟨pw, hpw, hsucc⟩ := hleg
    obtain ⟨u, hu, hue, hup⟩ := (signIn_true_iff st.session (farcasterEmail fid) pw).mp hsucc
    exact ⟨u, hu, hue⟩
  have hsignup := signUp_already st.session (farcasterEmail fid)
    (farcasterPassword fid username) hereg
  simp only [h1, Bool.false_eq_true, if_false, hsignup]
  have hloop := socialFallbackLoop_success st.session (farcasterEmail fid)
    (farcasterPassword fid username)
    (socialAltPasswords fid username (extractPayload p).signature)
    (by rw [h1]) hleg
  rcases h3 : socialFallbackLoop st.session (farcasterEmail fid)
      (farcasterPassword fid username)
      (socialAltPasswords fid username (extractPayload p).signature)
      with ⟨s3, ok3, tr3⟩
  rw [h3] at hloop
  have hok3 : ok3 = true := hloop.1
  subst hok3
  simp only [h3, if_true]
  refine ⟨(finishSocial_facts _ _ _ _ _).2.2.1, ?_, ?_⟩
  · apply (finishSocial_facts _ _ _ _ _).2.2.2.2
    exact List.mem_append_right _ hloop.2.1
  · rw [(finishSocial_facts _ _ _ _ _).2.1]
    exact hloop.2.2

/-- Witness for C4: a store holding the account under the legacy
`_stable_key` secret is migrated — the flow succeeds, calls the reset
function, and afterwards the current formula signs in directly. -/
theorem legacy_variant_self_healing_witness :
    (signIn { users := [{ id := 7, email := "farcaster_42@faragent.local",
                          password := "fc_42_alice_stable_key" }],
              nextId := 8, current := none }
      (farcasterEmail 42) (farcasterPassword 42 "alice")).2 = false ∧
    (handleSuccess
       { session := { users := [{ id := 7, email := "farcaster_42@faragent.local",
                                  password := "fc_42_alice_stable_key" }],
                      nextId := 8, current := none },
         links := { rows := [] }, hasProcessedSuccess := false }
       { fid := some 42, username := some "alice", displayName := none,
         pfpUrl := none, signature := some "0xproof", metadata := none,
         signatureParams := none }).2.1 = .success ∧
    (signIn
      (handleSuccess
        { session := { users := [{ id := 7, email := "farcaster_42@faragent.local",
                                   password := "fc_42_alice_stable_key" }],
                       nextId := 8, current := none },
          links := { rows := [] }, hasProcessedSuccess := false }
        { fid := some 42, username := some "alice", displayName := none,
          pfpUrl := none, signature := some "0xproof", metadata := none,
          signatureParams := none }).1.session
      (farcasterEmail 42) (farcasterPassword 42 "alice")).2 = true := by
  have h := legacy_variant_self_healing
    { session := { users := [{ id := 7, email := "farcaster_42@faragent.local",
                               password := "fc_42_alice_stable_key" }],
                   nextId := 8, current := none },
      links := { rows := [] }, hasProcessedSuccess := false }
    { fid := some 42, username := some "alice", displayName := none,
      pfpUrl := none, signature := some "0xproof", metadata := none,
      signatureParams := none }
    42 "alice" rfl (by decide) (by decide) (by decide) (by decide) (by decide)
    ⟨"fc_42_alice_stable_key", by decide, by decide⟩
  exact ⟨by decide, h.2.1, h.2.2.2⟩

/-! ## Lemmas for the wallet relinking flow -/

theorem maybeSingleByWallet_mem (ls : LinkStore) (cands : List String) (c : LinkRecord)
    (h : maybeSingleByWallet ls cands = some c) : c ∈ ls.rows := by
  unfold maybeSingleByWallet at h
  split at h
  case _ r heq =>
    cases h
    have hm : c ∈ ls.rows.filter (walletMatches cands) := by
      rw [heq]
      exact List.mem_singleton_self c
    exact (List.mem_filter.mp hm).1
  case _ => cases h

theorem updateWalletAddress_sets (ls : LinkStore) (uid : Nat) (addr : String) :
    ∀ r ∈ (updateWalletAddress ls uid addr).rows, r.user_id = uid →
      r.wallet_address = some addr := by
  intro r hr huid
  unfold updateWalletAddress at hr
  obtain ⟨q, hq, rfl⟩ := List.mem_map.mp hr
  by_cases h : (q.user_id == uid) = true
  · simp [h]
  · rw [if_neg h] at huid ⊢
    exact absurd (by simp [huid]) h

theorem walletUpdatePayload_wallet (uid : Nat) (addr : String)
    (cc : Option LinkRecord) :
    (walletUpdatePayload uid addr cc).wallet_address = some (some addr) := by
  unfold walletUpdatePayload
  rcases cc with _ | c
  · rfl
  · by_cases h : truthyNat c.farcaster_fid = true <;> simp [h]

theorem applyUpsert_wallet_sets (ls : LinkStore) (p : UpdatePayload) (w : Option String)
    (hw : p.wallet_address = some w) :
    ∀ r ∈ (applyUpsert ls p).rows, r.user_id = p.user_id → r.wallet_address = w := by
  intro r hr huid
  unfold applyUpsert at hr
  rcases hf : ls.rows.find? (fun q => q.user_id == p.user_id) with _ | q
  · rw [hf] at hr
    simp only at hr
    rcases List.mem_append.mp hr with hold | hnew
    · exfalso
      have hn := List.find?_eq_none.mp hf r hold
      simp [huid] at hn
    · rw [List.mem_singleton] at hnew
      subst hnew
      simp [newRow, hw]
  · rw [hf] at hr
    simp only at hr
    obtain ⟨q2, hq2, rfl⟩ := List.mem_map.mp hr
    by_cases hqi : (q2.user_id == p.user_id) = true
    · rw [if_pos hqi]
      simp [mergeRow, hw]
    · rw [if_neg hqi] at huid ⊢
      exact absurd (by simp [huid]) hqi

theorem walletFlowUpsert_sets (ls : LinkStore) (uid : Nat) (addr : String) :
    ∀ r ∈ (applyUpsert ls (walletUpdatePayload uid addr (findByUserId ls uid))).rows,
      r.user_id = uid → r.wallet_address = some addr := by
  intro r hr huid
  refine applyUpsert_wallet_sets ls (walletUpdatePayload uid addr (findByUserId ls uid))
    (some addr) (walletUpdatePayload_wallet uid addr _) r hr ?_
  rw [walletUpdatePayload_user_id]
  exact huid

theorem walletLinkFinish_some (s : SessionStore) (ls : LinkStore) (uid : Nat)
    (addr : String) (tr : List AuthAction) :
    walletLinkFinish s ls (some uid) addr tr =
      ⟨s, applyUpsert ls (walletUpdatePayload uid addr (findByUserId ls uid)), .success,
       tr ++ [.upsertLink (walletUpdatePayload uid addr (findByUserId ls uid))]⟩ := rfl

/-- C1: running the wallet-linking flow with an address already bound in
the Link Store to an account with a social identity never creates a new
wallet-derived account: the session store's accounts are unchanged and no
sign-up of any kind is attempted; the flow either signs in as the bound
account (trying the current and legacy social credential variants) and
sets that account's wallet field, or raises a conflict naming the bound
handle while leaving both stores untouched. -/
theorem wallet_relink_resolves_to_bound_account (session : SessionStore)
    (links : LinkStore) (address signature : String) (c : LinkRecord)
    (f : Nat) (handle : String)
    (hfound : maybeSingleByWallet links (candidateAddressFormats address) = some c)
    (hfid : c.farcaster_fid = some f) (hf0 : f ≠ 0)
    (hhandle : c.farcaster_username = some handle)
    (hco : ∀ u ∈ session.users, u.email = farcasterEmail f → u.id = c.user_id) :
    (handleWalletAuth session links address signature).session.users = session.users ∧
    (∀ e pw, AuthAction.signUpAttempt e pw ∉
      (handleWalletAuth session links address signature).trace) ∧
    (((handleWalletAuth session links address signature).result = .success ∧
      (handleWalletAuth session links address signature).session.current =
        some c.user_id ∧
      ∀ r ∈ (handleWalletAuth session links address signature).links.rows,
        r.user_id = c.user_id → r.wallet_address = some (normalizeAddress address)) ∨
     ((handleWalletAuth session links address signature).result = .conflict handle ∧
      (handleWalletAuth session links address signature).session = session ∧
      (handleWalletAuth session links address signature).links = links)) := by
  have htr : truthyNat c.farcaster_fid = true := by simp [hfid, truthyNat, hf0]
  have htr' : truthyNat (some f) = true := by simp [truthyNat, hf0]
  simp only [handleWalletAuth, hfound, htr, htr', eq_self_iff_true, if_true, hfid,
    hhandle, jsShowOptNat, jsShowOptStr]
  rcases hA : signIn session ("farcaster_" ++ toString f ++ "@faragent.local")
      ("fc_" ++ toString f ++ "_" ++ handle) with ⟨sA, okA⟩
  rcases okA with _ | _
  · have hsA : sA = session := by
      have he := signIn_fail_eq session ("farcaster_" ++ toString f ++ "@faragent.local")
        ("fc_" ++ toString f ++ "_" ++ handle) (by rw [hA])
      rw [hA] at he
      exact he
    rcases hB : signIn sA ("farcaster_" ++ toString f ++ "@faragent.local")
        ("fc_" ++ toString f ++ "_" ++ handle ++ "_stable_key") with ⟨sB, okB⟩
    rcases okB with _ | _
    · have hsB : sB = sA := by
        have he := signIn_fail_eq sA ("farcaster_" ++ toString f ++ "@faragent.local")
          ("fc_" ++ toString f ++ "_" ++ handle ++ "_stable_key") (by rw [hB])
        rw [hB] at he
        exact he
      simp only [walletFarcasterLoop, hA, hB, Bool.false_eq_true, if_false]
      refine ⟨by rw [hsB, hsA], ?_, Or.inr ⟨by simp, by rw [hsB, hsA], by simp⟩⟩
      intro e pw hmem
      simp at hmem
    · obtain ⟨u, hu, hue, hup, hcur⟩ := signIn_success_current sA
        ("farcaster_" ++ toString f ++ "@faragent.local")
        ("fc_" ++ toString f ++ "_" ++ handle ++ "_stable_key") (by rw [hB])
      rw [hB] at hcur
      have hcur' : sB.current = some u.id := hcur
      have hid : u.id = c.user_id := by
        apply hco u
        · rw [hsA] at hu
          exact hu
        · exact hue
      simp only [walletFarcasterLoop, hA, hB, Bool.false_eq_true, if_false,
        eq_self_iff_true, if_true, hcur']
      rw [walletLinkFinish_some]
      have husersB : sB.users = session.users := by
        have h2 := signIn_users sA ("farcaster_" ++ toString f ++ "@faragent.local")
          ("fc_" ++ toString f ++ "_" ++ handle ++ "_stable_key")
        rw [hB] at h2
        rw [h2, hsA]
      refine ⟨husersB, ?_, Or.inl ⟨by simp, by rw [show sB.current = some u.id from hcur', hid], ?_⟩⟩
      · intro e pw hmem
        simp at hmem
      · intro r hr hru
        refine walletFlowUpsert_sets _ u.id (normalizeAddress address) r hr ?_
        rw [hid]
        exact hru
  · obtain ⟨u, hu, hue, hup, hcur⟩ := signIn_success_current session
      ("farcaster_" ++ toString f ++ "@faragent.local")
      ("fc_" ++ toString f ++ "_" ++ handle) (by rw [hA])
    rw [hA] at hcur
    have hcur' : sA.current = some u.id := hcur
    have hid : u.id = c.user_id := hco u hu hue
    simp only [walletFarcasterLoop, hA, eq_self_iff_true, if_true, hcur']
    rw [walletLinkFinish_some]
    have husersA : sA.users = session.users := by
      have h2 := signIn_users session ("farcaster_" ++ toString f ++ "@faragent.local")
        ("fc_" ++ toString f ++ "_" ++ handle)
      rw [hA] at h2
      exact h2
    refine ⟨husersA, ?_, Or.inl ⟨by simp, by rw [show sA.current = some u.id from hcur', hid], ?_⟩⟩
    · intro e pw hmem
      simp at hmem
    · intro r hr hru
      refine walletFlowUpsert_sets _ u.id (normalizeAddress address) r hr ?_
      rw [hid]
      exact hru

/-- Witness for C1: a wallet already bound to the Farcaster account of
fid 9 / handle "bob" re-links by signing in as that account; no sign-up
runs and the sole account's wallet field holds the normalized address. -/
theorem wallet_relink_resolves_to_bound_account_witness :
    maybeSingleByWallet
        { rows := [{ user_id := 3, wallet_address := some "0xabc",
                     farcaster_fid := some 9, farcaster_username := some "bob",
                     farcaster_display_name := some "Bob",
                     farcaster_pfp_url := some "", farcaster_signer_uuid := none }] }
        (candidateAddressFormats "0xABC") =
      some { user_id := 3, wallet_address := some "0xabc",
             farcaster_fid := some 9, farcaster_username := some "bob",
             farcaster_display_name := some "Bob",
             farcaster_pfp_url := some "", farcaster_signer_uuid := none } ∧
    (handleWalletAuth
        { users := [{ id := 3, email := "farcaster_9@faragent.local",
                      password := "fc_9_bob" }], nextId := 4, current := none }
        { rows := [{ user_id := 3, wallet_address := some "0xabc",
                     farcaster_fid := some 9, farcaster_username := some "bob",
                     farcaster_display_name := some "Bob",
                     farcaster_pfp_url := some "", farcaster_signer_uuid := none }] }
        "0xABC" "0xsig").session.users =
      ({ users := [{ id := 3, email := "farcaster_9@faragent.local",
                     password := "fc_9_bob" }], nextId := 4,
         current := none } : SessionStore).users ∧
    (∀ e pw, AuthAction.signUpAttempt e pw ∉
      (handleWalletAuth
        { users := [{ id := 3, email := "farcaster_9@faragent.local",
                      password := "fc_9_bob" }], nextId := 4, current := none }
        { rows := [{ user_id := 3, wallet_address := some "0xabc",
                     farcaster_fid := some 9, farcaster_username := some "bob",
                     farcaster_display_name := some "Bob",
                     farcaster_pfp_url := some "", farcaster_signer_uuid := none }] }
        "0xABC" "0xsig").trace) := by
  have h := wallet_relink_resolves_to_bound_account
    { users := [{ id := 3, email := "farcaster_9@faragent.local",
                  password := "fc_9_bob" }], nextId := 4, current := none }
    { rows := [{ user_id := 3, wallet_address := some "0xabc",
                 farcaster_fid := some 9, farcaster_username := some "bob",
                 farcaster_display_name := some "Bob",
                 farcaster_pfp_url := some "", farcaster_signer_uuid := none }] }
    "0xABC" "0xsig"
    { user_id := 3, wallet_address := some "0xabc",
      farcaster_fid := some 9, farcaster_username := some "bob",
      farcaster_display_name := some "Bob",
      farcaster_pfp_url := some "", farcaster_signer_uuid := none }
    9 "bob" (by decide) (by decide) (by decide) (by decide)
    (by
      intro u hu hue
      rcases List.mem_singleton.mp hu with rfl
      rfl)
  exact ⟨by decide, h.1, h.2.1⟩
